import Mathlib

/-!
Verification of the BehaviourLock orchestration frontend.

This file gives a shallow embedding of the client-side orchestration logic of
the BehaviourLock repository and proves the testable properties stated in its
specification against that embedding.

Embedded source files:
- frontend/js/sections/diff.js (the nine-stage PipelineSection: STAGE_MAP, the
  SSE onmessage handler of runPipeline, pollUntilDone, overrideRisk,
  fetchAllResults)
- frontend/js/state.js (State store and event emitter)
- frontend/js/sections/report.js and validation.js (threshold coloring)
- the API fetch wrapper (thin wrapper over HTTP responses)

Parts of the system that live in the backend (the Verdict Engine and the
artifact store with override invalidation) are not present under the frontend
sources; definitions for those are modelled from the specification and carry a
doc comment saying so.

DOM-only operations (activateStep, banners, badges, toasts) are modelled only
insofar as the claims observe them: the ordered list of completeStep calls, the
warning and error marks, and the status line text.
-/

namespace BehaviourLock

/-! ## Verdict Engine (spec section 4.4) -/

inductive Verdict where
  | SAFE
  | RISKY
  | BLOCKED
deriving DecidableEq, Repr

/-- Modelled from the spec: the Verdict Engine is a backend component that is
not part of the frontend sources; only its output is rendered by report.js.
Spec section 4.4 gives the threshold table together with the tie-break
policy: evaluate SAFE first, then BLOCKED, then default to RISKY. -/
def computeVerdict (behaviorPreservationPct : ℚ) (criticalDrifts : ℕ) : Verdict :=
  if 98 ≤ behaviorPreservationPct ∧ criticalDrifts = 0 then Verdict.SAFE
  else if behaviorPreservationPct < 85 ∨ 2 < criticalDrifts then Verdict.BLOCKED
  else Verdict.RISKY

/-- From validation.js lines 10-12 and report.js lines 62-66: the preservation
percentage is colored text-safe at 98 and above, text-risky at 85 and above,
and text-blocked below 85. -/
def preservationColorClass (pct : ℚ) : String :=
  if 98 ≤ pct then "text-safe" else if 85 ≤ pct then "text-risky" else "text-blocked"

/-! ## Stage table (diff.js, nine-stage PipelineSection) -/

/-- From diff.js: the STAGES array of the nine-stage stepper. -/
def STAGES : List String :=
  ["ingest", "mining", "dead_code", "testgen", "baseline",
   "risk_check", "migration", "validation", "report"]

/-- From diff.js: the STAGE_MAP table sending backend stage labels to stepper
indices; labels not in the table give undefined, modelled as none. -/
def STAGE_MAP : String → Option Nat
  | "starting" => some 0
  | "ingested" => some 0
  | "workflow_mined" => some 1
  | "dead_code_detected" => some 2
  | "testgen_complete" => some 3
  | "baseline_complete" => some 4
  | "risk_analyzed" => some 5
  | "risk_blocked" => some 5
  | "risk_overridden" => some 5
  | "migration_complete" => some 6
  | "migrated" => some 6
  | "validated" => some 7
  | "validation_complete" => some 7
  | "report_complete" => some 8
  | "complete" => some 8
  | _ => none

/-- The SSE handler reads the stage label from the data, defaulting a missing
field to the empty string, then looks it up in STAGE_MAP. -/
def sseStageIdx (stageField : Option String) : Option Nat :=
  STAGE_MAP (stageField.getD "")

/-- The polling loop looks the current_stage field of the status snapshot up
in the same STAGE_MAP table. -/
def pollStageIdx (currentStage : String) : Option Nat :=
  STAGE_MAP currentStage

/-- Index update of the SSE handler: move forward only when the new index is
defined and strictly larger than the current one. -/
def sseAdvanceIdx (currentIdx : Nat) (stageField : Option String) : Nat :=
  match sseStageIdx stageField with
  | some newIdx => if currentIdx < newIdx then newIdx else currentIdx
  | none => currentIdx

/-- Index update of the polling loop, same guard as the SSE handler. -/
def pollAdvanceIdx (currentIdx : Nat) (currentStage : String) : Nat :=
  match pollStageIdx currentStage with
  | some newIdx => if currentIdx < newIdx then newIdx else currentIdx
  | none => currentIdx

/-- The list of indices the for loop completes: lo, lo+1, ... for n steps.
This embeds the loop for i from currentIdx while i is below newIdx. -/
def stepsFrom (lo : Nat) : Nat → List Nat
  | 0 => []
  | n + 1 => lo :: stepsFrom (lo + 1) n

/-- Completed steps when moving from lo up to hi. -/
def stepsBetween (lo hi : Nat) : List Nat :=
  stepsFrom lo (hi - lo)

/-- Stage text shown in the status line: underscores become spaces and three
dots are appended. -/
def stageDisplay (stage : String) : String :=
  String.map (fun c => if c = '_' then ' ' else c) stage ++ "..."

/-! ## SSE push channel (runPipeline onmessage handler in diff.js) -/

/-- Risk assessment payload as the client consumes it; only the blocked flag
steers control flow. -/
structure RiskData where
  blocked : Bool
deriving DecidableEq, Repr

/-- Parsed SSE event payload: optional stage label, optional risk assessment,
optional live drift count, optional error message, done flag. -/
structure SSEData where
  stage : Option String
  risk : Option RiskData
  drifts : Option Nat
  error : Option String
  done : Bool
deriving DecidableEq, Repr

/-- A raw SSE message: either its data field fails to parse as JSON, or it
parses to an SSEData value. -/
inductive RawMsg where
  | malformed
  | parsed (d : SSEData)
deriving DecidableEq, Repr

/-- How the promise around the SSE stream has settled, if at all. -/
inductive Settled where
  | notYet
  | resolvedBlocked
  | resolvedDone
  | rejectedErr (msg : String)
deriving DecidableEq, Repr

/-- Observable client state of the running SSE handler: the tracked stepper
index, the ordered list of completeStep calls, whether the event source is
still open, how the promise settled, the stored risk result, the status line,
and the indices marked with warning and error styling. -/
structure HandlerState where
  currentIdx : Nat
  completed : List Nat
  streamOpen : Bool
  settled : Settled
  riskStored : Option RiskData
  statusText : String
  warnedIdx : Option Nat
  erroredIdx : Option Nat
deriving DecidableEq, Repr

/-- Status line used when the risk gate blocks the run on the push channel. -/
def riskPausedMsg : String :=
  "Pipeline paused — risk threshold exceeded. Override to continue."

/-- Status line used when the polling loop sees the risk_blocked stage. -/
def pollPausedMsg : String :=
  "Pipeline paused — risk threshold exceeded."

/-- Initial handler state of runPipeline: index 0 active, nothing completed,
stream open, promise pending. -/
def initHandler (i0 : Nat) : HandlerState :=
  { currentIdx := i0
    completed := []
    streamOpen := true
    settled := Settled.notYet
    riskStored := none
    statusText := "Pipeline starting..."
    warnedIdx := none
    erroredIdx := none }

/-- Stepper advance shared by both observation channels: when STAGE_MAP gives
an index strictly beyond the current one, complete every step in between and
move the current index forward. -/
def advanceStage (s : HandlerState) (stage : String) : HandlerState :=
  match STAGE_MAP stage with
  | some newIdx =>
    if s.currentIdx < newIdx then
      { s with completed := s.completed ++ stepsBetween s.currentIdx newIdx
               currentIdx := newIdx }
    else s
  | none => s

/-- The body of the onmessage handler for a message that parsed: advance the
stepper, update the status line, store a risk payload and, when it is
blocked, close the stream, mark the warning, and resolve as blocked;
otherwise reject on an error field, and resolve as done on a done flag with
no error and no blocked risk. -/
def onParsed (s : HandlerState) (d : SSEData) : HandlerState :=
  let stage := d.stage.getD ""
  let s2 := { advanceStage s stage with statusText := "Stage: " ++ stageDisplay stage }
  let s3 :=
    match d.risk with
    | some r => { s2 with riskStored := some r }
    | none => s2
  if d.risk.any (fun r => r.blocked) then
    { s3 with streamOpen := false
              warnedIdx := some s3.currentIdx
              statusText := riskPausedMsg
              settled := Settled.resolvedBlocked }
  else
    let s4 :=
      match d.error with
      | some msg =>
        { s3 with streamOpen := false
                  erroredIdx := some s3.currentIdx
                  statusText := "Error: " ++ msg
                  settled := Settled.rejectedErr msg }
      | none => s3
    if d.done && d.error.isNone && !(d.risk.any (fun r => r.blocked)) then
      { s4 with streamOpen := false
                completed := s4.completed ++ stepsBetween 0 STAGES.length
                statusText := "Pipeline complete!"
                settled := Settled.resolvedDone }
    else s4

/-- One SSE onmessage delivery, translated from diff.js lines 161-211. A
closed event source delivers nothing, and a message whose data fails to parse
returns immediately without touching anything. -/
def onMessage (s : HandlerState) (m : RawMsg) : HandlerState :=
  if s.streamOpen = false then s
  else
    match m with
    | RawMsg.malformed => s
    | RawMsg.parsed d => onParsed s d

/-- Deliver a sequence of SSE messages in order. -/
def processMsgs (s : HandlerState) (msgs : List RawMsg) : HandlerState :=
  msgs.foldl onMessage s

/-! ## Polling fallback (pollUntilDone in diff.js) -/

/-- Status snapshot returned by the status endpoint, as the polling loop reads
it: the current stage label, an optional error, and the report_ready flag of
stages_done. -/
structure StatusResp where
  current_stage : String
  error : Option String
  report_ready : Bool
deriving DecidableEq, Repr

/-- One iteration worth of network responses for the polling loop: either the
status call threw with a message, or it returned a snapshot; in the snapshot
case the optional RiskData is the answer to the follow-up risk fetch that the
risk_blocked branch performs (none meaning that call failed). -/
inductive PollResp where
  | netErr (msg : String)
  | ok (st : StatusResp) (riskResp : Option RiskData)
deriving DecidableEq, Repr

/-- How pollUntilDone ended: still looping when responses ran out, threw a
message containing not found or a pipeline error containing not found,
returned through the risk_blocked branch, or returned complete. -/
inductive PollOutcome where
  | pending
  | failed (msg : String)
  | blockedPause
  | completed
deriving DecidableEq, Repr

/-- Observable client state of the polling loop. -/
structure PollState where
  currentIdx : Nat
  completed : List Nat
  statusText : String
  riskStored : Option RiskData
  warnedIdx : Option Nat
  erroredIdx : Option Nat
deriving DecidableEq, Repr

/-- Initial polling state when the loop is entered at startIdx. -/
def initPollState (startIdx : Nat) : PollState :=
  { currentIdx := startIdx
    completed := []
    statusText := ""
    riskStored := none
    warnedIdx := none
    erroredIdx := none }

/-- Substring membership of pat in hay, used for the not found check. -/
def isPre (pat hay : List Char) : Bool :=
  match pat, hay with
  | [], _ => true
  | _ :: _, [] => false
  | p :: ps, h :: hs => p = h && isPre ps hs

/-- Scan hay for an occurrence of pat. -/
def hasSub (hay pat : List Char) : Bool :=
  match hay with
  | [] => pat.isEmpty
  | _ :: hs => isPre pat hay || hasSub hs pat

/-- Model of the includes check on strings. -/
def msgIncludes (msg pat : String) : Bool :=
  hasSub msg.toList pat.toList

/-- Stepper advance of the polling loop, the same guard and completion loop
as the push channel. -/
def advancePoll (s : PollState) (stage : String) : PollState :=
  match STAGE_MAP stage with
  | some newIdx =>
    if s.currentIdx < newIdx then
      { s with completed := s.completed ++ stepsBetween s.currentIdx newIdx
               currentIdx := newIdx }
    else s
  | none => s

/-- The pollUntilDone loop of diff.js lines 282-328, driven by an explicit
list of network responses; exhausting the list leaves the loop pending. A
thrown status call is retried unless its message contains not found. A status
snapshot advances the stepper through STAGE_MAP; a pipeline error sets the
error mark and is rethrown, but the own catch of the loop swallows it and
retries unless the message contains not found; the risk_blocked stage marks a
warning, stores the risk fetch result when it succeeds, and returns; a
report_ready snapshot completes every step and returns. -/
def pollRun (s : PollState) : List PollResp → PollState × PollOutcome
  | [] => (s, PollOutcome.pending)
  | PollResp.netErr msg :: rest =>
    if msgIncludes msg "not found" then (s, PollOutcome.failed msg)
    else pollRun s rest
  | PollResp.ok st riskResp :: rest =>
    let s2 := { advancePoll s st.current_stage with
                statusText := "Stage: " ++ stageDisplay st.current_stage }
    match st.error with
    | some msg =>
      let s3 := { s2 with erroredIdx := some s2.currentIdx
                          statusText := "Error: " ++ msg }
      if msgIncludes msg "not found" then (s3, PollOutcome.failed msg)
      else pollRun s3 rest
    | none =>
      if st.current_stage = "risk_blocked" then
        let s4 := { s2 with warnedIdx := some s2.currentIdx
                            statusText := pollPausedMsg }
        let s5 :=
          match riskResp with
          | some r => { s4 with riskStored := some r }
          | none => s4
        (s5, PollOutcome.blockedPause)
      else if st.report_ready then
        ({ s2 with completed := s2.completed ++ stepsBetween 0 STAGES.length
                   statusText := "Pipeline complete!" }, PollOutcome.completed)
      else pollRun s2 rest

/-! ## Whole-run models (runPipeline and overrideRisk in diff.js) -/

/-- Outcome of a whole runPipeline invocation as the client observes it. -/
inductive RunResult where
  | pausedAtRisk
  | completedFetched
  | failed (msg : String)
  | stillWaiting
deriving DecidableEq, Repr

/-- runPipeline when the SSE channel stays healthy: the promise result drives
whether results are fetched; a blocked resolution returns before fetching. -/
def sseOnlyRun (msgs : List RawMsg) : RunResult :=
  match (processMsgs (initHandler 0) msgs).settled with
  | Settled.resolvedBlocked => RunResult.pausedAtRisk
  | Settled.resolvedDone => RunResult.completedFetched
  | Settled.rejectedErr m => RunResult.failed m
  | Settled.notYet => RunResult.stillWaiting

/-- runPipeline when the SSE channel errors after the given messages: the
onerror handler closes the source and falls back to polling from the index
already reached; the poll promise resolving (either complete or through the
risk_blocked return) resolves the run as not blocked, so results are fetched;
only a poll failure rejects. A stream that was already closed cannot fire
onerror, so the run behaves as the pure SSE run. -/
def transportErrorRun (msgs : List RawMsg) (polls : List PollResp) : RunResult :=
  if (processMsgs (initHandler 0) msgs).streamOpen then
    match (pollRun (initPollState (processMsgs (initHandler 0) msgs).currentIdx) polls).2 with
    | PollOutcome.completed => RunResult.completedFetched
    | PollOutcome.blockedPause => RunResult.completedFetched
    | PollOutcome.failed m => RunResult.failed m
    | PollOutcome.pending => RunResult.stillWaiting
  else sseOnlyRun msgs

/-- Observable outcome of an overrideRisk invocation. -/
structure OverrideOutcome where
  riskStepDone : Bool
  migrationActivated : Bool
  pollStartIdx : Option Nat
  fetched : Bool
  statusText : String
  failedMsg : Option String
  terminalComplete : Bool
deriving DecidableEq, Repr

/-- The overrideRisk flow of diff.js lines 244-279: await the override call;
on success mark the risk step done, activate the migration step, poll from
index 6, then fetch all results; a poll failure is caught and shown as an
override failure; the risk_blocked return of the poll still proceeds to the
fetch. The override endpoint itself is backend code, so its response is an
input here. -/
def overrideRiskModel (apiResp : Except String Unit) (polls : List PollResp) :
    OverrideOutcome :=
  match apiResp with
  | Except.error m =>
    { riskStepDone := false
      migrationActivated := false
      pollStartIdx := none
      fetched := false
      statusText := "Override failed: " ++ m
      failedMsg := some m
      terminalComplete := false }
  | Except.ok _ =>
    let base : OverrideOutcome :=
      { riskStepDone := true
        migrationActivated := true
        pollStartIdx := some 6
        fetched := false
        statusText := "Risk overridden — continuing migration..."
        failedMsg := none
        terminalComplete := false }
    match pollRun (initPollState 6) polls with
    | (ps, PollOutcome.completed) =>
      { base with fetched := true, terminalComplete := true, statusText := ps.statusText }
    | (ps, PollOutcome.blockedPause) =>
      { base with fetched := true, statusText := ps.statusText }
    | (_, PollOutcome.failed m) =>
      { base with statusText := "Override failed: " ++ m, failedMsg := some m }
    | (_, PollOutcome.pending) => base

/-! ## Client state store (state.js) -/

/-- The State singleton of state.js: session id, pipeline flag, and the result
map. The result map is total over string keys with optional values. -/
structure StateData (α : Type) where
  sessionId : Option String
  pipelineRunning : Bool
  results : String → Option α

/-- State.setResult: store the value under the key. The synchronous emit is
modelled separately by setResultEmits. -/
def setResult {α : Type} (st : StateData α) (key : String) (v : α) : StateData α :=
  { st with results := fun k => if k = key then some v else st.results k }

/-- State.getResult. -/
def getResult {α : Type} (st : StateData α) (key : String) : Option α :=
  st.results key

/-- One State.on registration: an event name and a listener token. -/
structure Registration (β : Type) where
  event : String
  fn : β
deriving DecidableEq, Repr

/-- State.on appends the listener to the list for its event. -/
def onReg {β : Type} (ls : String → List β) (r : Registration β) : String → List β :=
  fun e => if e = r.event then ls e ++ [r.fn] else ls e

/-- Registering a list of listeners in order, starting from no listeners. -/
def registerAll {β : Type} (regs : List (Registration β)) : String → List β :=
  regs.foldl onReg (fun _ => [])

/-- State.emit: invoke every listener of the event, in stored order, with the
payload; the result is the ordered list of calls performed. -/
def emitCalls {α β : Type} (ls : String → List β) (event : String) (payload : α) :
    List (β × α) :=
  (ls event).map (fun f => (f, payload))

/-- The emit performed by State.setResult for a key. -/
def setResultEmits {α β : Type} (ls : String → List β) (key : String) (v : α) :
    List (β × α) :=
  emitCalls ls ("result:" ++ key) v

/-! ## fetchAllResults (diff.js lines 330-347) -/

/-- The result keys fetched by the nine-stage fetchAllResults. -/
def RESULT_KEYS : List String :=
  ["graph", "tests", "baseline", "risk", "patch", "validation", "report", "deadCode"]

/-- fetchAllResults: fetch every key, then store only the fulfilled ones; a
rejected fetch leaves the previously stored value in place. -/
def fetchAllResultsModel {α : Type} (st : StateData α)
    (resp : String → Except String α) : StateData α :=
  RESULT_KEYS.foldl
    (fun acc key =>
      match resp key with
      | Except.ok v => setResult acc key v
      | Except.error _ => acc)
    st

/-- Modelled from the spec: the backend artifact store keyed by stage name is
not part of the frontend sources. Spec section 3 requires that an override
re-running a stage invalidates (removes) every artifact of a later stage. -/
def invalidateLaterStages {α : Type} (arts : String → Option α) (rerunIdx : Nat) :
    String → Option α :=
  fun stage =>
    match STAGES.findIdx? (fun s => s = stage) with
    | some i => if rerunIdx < i then none else arts stage
    | none => arts stage

/-- Modelled from the spec: fetching an artifact returns its value, and not
found when the store has none for that stage. -/
def fetchArtifactModel {α : Type} (arts : String → Option α) (stage : String) :
    Except String α :=
  match arts stage with
  | some v => Except.ok v
  | none => Except.error "not found"

/-- Concrete pre-override client store used to exhibit stale-value retention:
the patch artifact from before the override is cached. -/
def preOverrideStore : StateData String :=
  { sessionId := some "sess-1"
    pipelineRunning := false
    results := fun k => if k = "patch" then some "stale-patch" else none }

/-- Concrete post-override responses: every fetch is rejected with not found,
as the spec prescribes for invalidated artifacts. -/
def notFoundResponses : String → Except String String :=
  fun _ => Except.error "not found"

/-! ## API fetch wrapper -/

/-- The JSON body of a response, as far as the wrapper inspects it: the
optional detail field. -/
structure BodyJson where
  detail : Option String
deriving DecidableEq, Repr

/-- An HTTP response as the fetch wrapper observes it: ok flag, numeric
status, status text, and the JSON parse of the body (none when the body does
not parse as JSON). -/
structure HttpResponse where
  ok : Bool
  status : Nat
  statusText : String
  jsonBody : Option BodyJson
deriving DecidableEq, Repr

/-- The _fetch wrapper: an ok response resolves with its parsed JSON body (a
body that does not parse rejects with the parse failure); a non-ok response
throws an Error whose message is the detail field when the body parses as
JSON with a nonempty detail, otherwise the HTTP status fallback — where a
body that does not parse is replaced by a synthetic detail equal to the
status text. -/
def fetchModel (r : HttpResponse) : Except String BodyJson :=
  if r.ok then
    match r.jsonBody with
    | some b => Except.ok b
    | none => Except.error "invalid json"
  else
    let body : BodyJson :=
      match r.jsonBody with
      | some b => b
      | none => { detail := some r.statusText }
    match body.detail with
    | some d => if d = "" then Except.error ("HTTP " ++ toString r.status) else Except.error d
    | none => Except.error ("HTTP " ++ toString r.status)

/-! ## Helper lemmas -/

lemma verdict_safe_iff (pct : ℚ) (crit : ℕ) :
    computeVerdict pct crit = Verdict.SAFE ↔ (98 ≤ pct ∧ crit = 0) := by
  unfold computeVerdict
  split_ifs with h1 h2
  · simp [h1]
  · simp [h1]
  · simp [h1]

lemma verdict_blocked_iff (pct : ℚ) (crit : ℕ) :
    computeVerdict pct crit = Verdict.BLOCKED ↔ (pct < 85 ∨ 2 < crit) := by
  unfold computeVerdict
  split_ifs with h1 h2
  · obtain ⟨ha, hb⟩ := h1
    refine iff_of_false (by simp) ?_
    rintro (h | h)
    · linarith
    · omega
  · simp [h2]
  · simp [h2]

lemma verdict_risky_iff (pct : ℚ) (crit : ℕ) :
    computeVerdict pct crit = Verdict.RISKY ↔
      (¬(98 ≤ pct ∧ crit = 0) ∧ ¬(pct < 85 ∨ 2 < crit)) := by
  unfold computeVerdict
  split_ifs with h1 h2
  · exact iff_of_false (by simp) (fun h => h.1 h1)
  · exact iff_of_false (by simp) (fun h => h.2 h2)
  · exact iff_of_true rfl ⟨h1, h2⟩

lemma color_safe_iff (pct : ℚ) :
    preservationColorClass pct = "text-safe" ↔ 98 ≤ pct := by
  unfold preservationColorClass
  split_ifs with h1 h2
  · exact iff_of_true rfl h1
  · exact iff_of_false (by decide) h1
  · exact iff_of_false (by decide) h1

lemma onMessage_malformed (t : HandlerState) : onMessage t RawMsg.malformed = t := by
  unfold onMessage
  split <;> rfl

lemma stepsFrom_append (a b lo : Nat) :
    stepsFrom lo (a + b) = stepsFrom lo a ++ stepsFrom (lo + a) b := by
  induction a generalizing lo with
  | zero => simp [stepsFrom]
  | succ a ih =>
    have h1 : a + 1 + b = a + b + 1 := by omega
    rw [h1]
    have lhs : stepsFrom lo (a + b + 1) = lo :: stepsFrom (lo + 1) (a + b) := rfl
    have rhs : stepsFrom lo (a + 1) = lo :: stepsFrom (lo + 1) a := rfl
    rw [lhs, rhs, ih (lo + 1), List.cons_append,
      show lo + 1 + a = lo + (a + 1) from by omega]

lemma stepsBetween_self (i : Nat) : stepsBetween i i = [] := by
  simp [stepsBetween, Nat.sub_self, stepsFrom]

lemma stepsBetween_trans (lo mid hi : Nat) (h1 : lo ≤ mid) (h2 : mid ≤ hi) :
    stepsBetween lo mid ++ stepsBetween mid hi = stepsBetween lo hi := by
  unfold stepsBetween
  have e1 : hi - lo = (mid - lo) + (hi - mid) := by omega
  have e2 : lo + (mid - lo) = mid := by omega
  rw [e1, stepsFrom_append, e2]

lemma advanceStage_currentIdx_ge (s : HandlerState) (st : String) :
    s.currentIdx ≤ (advanceStage s st).currentIdx := by
  unfold advanceStage
  cases h : STAGE_MAP st with
  | none => exact le_refl _
  | some n =>
    dsimp only
    by_cases hlt : s.currentIdx < n
    · rw [if_pos hlt]
      exact le_of_lt hlt
    · rw [if_neg hlt]

lemma advanceStage_completed (s : HandlerState) (st : String) :
    (advanceStage s st).completed
      = s.completed ++ stepsBetween s.currentIdx (advanceStage s st).currentIdx := by
  unfold advanceStage
  cases h : STAGE_MAP st with
  | none => simp [stepsBetween_self]
  | some n =>
    dsimp only
    by_cases hlt : s.currentIdx < n
    · rw [if_pos hlt]
    · rw [if_neg hlt]
      simp [stepsBetween_self]

lemma advanceStage_streamOpen (s : HandlerState) (st : String) :
    (advanceStage s st).streamOpen = s.streamOpen := by
  unfold advanceStage
  split
  · split <;> rfl
  · rfl

lemma advanceStage_settled (s : HandlerState) (st : String) :
    (advanceStage s st).settled = s.settled := by
  unfold advanceStage
  split
  · split <;> rfl
  · rfl

lemma advancePoll_currentIdx_ge (s : PollState) (st : String) :
    s.currentIdx ≤ (advancePoll s st).currentIdx := by
  unfold advancePoll
  cases h : STAGE_MAP st with
  | none => exact le_refl _
  | some n =>
    dsimp only
    by_cases hlt : s.currentIdx < n
    · rw [if_pos hlt]
      exact le_of_lt hlt
    · rw [if_neg hlt]

lemma advancePoll_completed (s : PollState) (st : String) :
    (advancePoll s st).completed
      = s.completed ++ stepsBetween s.currentIdx (advancePoll s st).currentIdx := by
  unfold advancePoll
  cases h : STAGE_MAP st with
  | none => simp [stepsBetween_self]
  | some n =>
    dsimp only
    by_cases hlt : s.currentIdx < n
    · rw [if_pos hlt]
    · rw [if_neg hlt]
      simp [stepsBetween_self]

lemma getResult_setResult_self {α : Type} (st : StateData α) (key : String) (v : α) :
    getResult (setResult st key v) key = some v := by
  simp [getResult, setResult]

lemma getResult_setResult_other {α : Type} (st : StateData α) (k key : String) (v : α)
    (h : k ≠ key) : getResult (setResult st key v) k = getResult st k := by
  simp [getResult, setResult, h]

lemma foldl_onReg_lookup {β : Type} (regs : List (Registration β)) (ls : String → List β)
    (e : String) :
    (regs.foldl onReg ls) e
      = ls e ++ (regs.filter (fun r => r.event = e)).map (fun r => r.fn) := by
  induction regs generalizing ls with
  | nil => simp
  | cons r rs ih =>
    obtain ⟨ev, f⟩ := r
    rw [List.foldl_cons, ih]
    by_cases h : ev = e
    · subst h
      simp [onReg]
    · have h2 : ¬e = ev := fun hh => h hh.symm
      simp [onReg, h, h2]

lemma registerAll_lookup {β : Type} (regs : List (Registration β)) (e : String) :
    registerAll regs e = (regs.filter (fun r => r.event = e)).map (fun r => r.fn) := by
  unfold registerAll
  rw [foldl_onReg_lookup]
  rfl

/-- Error message that the fetch wrapper throws for a non-ok response. -/
def fetchErrMsg (r : HttpResponse) : String :=
  match r.jsonBody with
  | some b =>
    match b.detail with
    | some d => if d = "" then "HTTP " ++ toString r.status else d
    | none => "HTTP " ++ toString r.status
  | none => if r.statusText = "" then "HTTP " ++ toString r.status else r.statusText

lemma fetchModel_not_ok (r : HttpResponse) (h : r.ok = false) :
    fetchModel r = Except.error (fetchErrMsg r) := by
  cases hj : r.jsonBody with
  | none => by_cases hs : r.statusText = "" <;> simp [fetchModel, fetchErrMsg, h, hj, hs]
  | some b =>
    cases hd : b.detail with
    | none => simp [fetchModel, fetchErrMsg, h, hj, hd]
    | some d => by_cases he : d = "" <;> simp [fetchModel, fetchErrMsg, h, hj, hd, he]

lemma fetchFold_keeps_rejected {α : Type} (resp : String → Except String α) (key e : String)
    (h : resp key = Except.error e) :
    ∀ (keys : List String) (acc : StateData α),
      getResult
        (keys.foldl
          (fun acc k =>
            match resp k with
            | Except.ok v => setResult acc k v
            | Except.error _ => acc)
          acc) key
        = getResult acc key := by
  intro keys
  induction keys with
  | nil => intro acc; rfl
  | cons k ks ih =>
    intro acc
    rw [List.foldl_cons, ih]
    cases hr : resp k with
    | error m => simp [hr]
    | ok v =>
      have hk : key ≠ k := by
        intro hkk
        rw [← hkk, h] at hr
        cases hr
      simp only [hr]
      exact getResult_setResult_other acc key k v hk

lemma onParsed_blocked (s : HandlerState) (d : SSEData)
    (hb : d.risk.any (fun r => r.blocked) = true) :
    (onParsed s d).settled = Settled.resolvedBlocked
    ∧ (onParsed s d).streamOpen = false
    ∧ (onParsed s d).statusText = riskPausedMsg
    ∧ (onParsed s d).currentIdx = (advanceStage s (d.stage.getD "")).currentIdx
    ∧ (onParsed s d).completed = (advanceStage s (d.stage.getD "")).completed := by
  cases hr : d.risk with
  | none => simp [hr] at hb
  | some r =>
    rw [hr] at hb
    simp only [Option.any_some] at hb
    simp [onParsed, hr, hb]

lemma onParsed_err (s : HandlerState) (d : SSEData) (m : String)
    (hb : d.risk.any (fun r => r.blocked) = false) (he : d.error = some m) :
    (onParsed s d).settled = Settled.rejectedErr m
    ∧ (onParsed s d).streamOpen = false
    ∧ (onParsed s d).currentIdx = (advanceStage s (d.stage.getD "")).currentIdx
    ∧ (onParsed s d).completed = (advanceStage s (d.stage.getD "")).completed := by
  cases hr : d.risk with
  | none => simp [onParsed, hr, he]
  | some r =>
    rw [hr] at hb
    simp only [Option.any_some] at hb
    simp [onParsed, hr, hb, he]

lemma onParsed_done (s : HandlerState) (d : SSEData)
    (hb : d.risk.any (fun r => r.blocked) = false) (he : d.error = none)
    (hd : d.done = true) :
    (onParsed s d).settled = Settled.resolvedDone
    ∧ (onParsed s d).streamOpen = false
    ∧ (onParsed s d).currentIdx = (advanceStage s (d.stage.getD "")).currentIdx
    ∧ (onParsed s d).completed
        = (advanceStage s (d.stage.getD "")).completed ++ stepsBetween 0 STAGES.length := by
  cases hr : d.risk with
  | none => simp [onParsed, hr, he, hd]
  | some r =>
    rw [hr] at hb
    simp only [Option.any_some] at hb
    simp [onParsed, hr, hb, he, hd]

lemma onParsed_quiet (s : HandlerState) (d : SSEData)
    (hb : d.risk.any (fun r => r.blocked) = false) (he : d.error = none)
    (hd : d.done = false) :
    (onParsed s d).settled = s.settled
    ∧ (onParsed s d).streamOpen = s.streamOpen
    ∧ (onParsed s d).currentIdx = (advanceStage s (d.stage.getD "")).currentIdx
    ∧ (onParsed s d).completed = (advanceStage s (d.stage.getD "")).completed := by
  cases hr : d.risk with
  | none => simp [onParsed, hr, he, hd, advanceStage_settled, advanceStage_streamOpen]
  | some r =>
    rw [hr] at hb
    simp only [Option.any_some] at hb
    simp [onParsed, hr, hb, he, hd, advanceStage_settled, advanceStage_streamOpen]

lemma onMessage_closed (s : HandlerState) (m : RawMsg) (h : s.streamOpen = false) :
    onMessage s m = s := by
  unfold onMessage
  rw [if_pos h]

lemma processMsgs_closed (s : HandlerState) (msgs : List RawMsg)
    (h : s.streamOpen = false) : processMsgs s msgs = s := by
  induction msgs with
  | nil => rfl
  | cons m ms ih =>
    show processMsgs (onMessage s m) ms = s
    rw [onMessage_closed s m h]
    exact ih

lemma processMsgs_cons (s : HandlerState) (m : RawMsg) (ms : List RawMsg) :
    processMsgs s (m :: ms) = processMsgs (onMessage s m) ms := rfl

lemma processMsgs_append (s : HandlerState) (xs ys : List RawMsg) :
    processMsgs s (xs ++ ys) = processMsgs (processMsgs s xs) ys := by
  unfold processMsgs
  exact List.foldl_append _ _ _ _

/-- Structural invariant of reachable handler states: the stream is open
exactly while the promise is unsettled, and a blocked resolution always shows
the pause message. -/
def GoodH (s : HandlerState) : Prop :=
  (s.streamOpen = true ↔ s.settled = Settled.notYet)
  ∧ (s.settled = Settled.resolvedBlocked → s.statusText = riskPausedMsg)

lemma goodH_init (i : Nat) : GoodH (initHandler i) := by
  constructor
  · simp [initHandler]
  · intro h
    simp [initHandler] at h

lemma bool_not_false (b : Bool) (h : ¬b = false) : b = true := by
  cases b
  · exact absurd rfl h
  · rfl

lemma any_blocked_false (o : Option RiskData) (h : ¬o.any (fun r => r.blocked) = true) :
    o.any (fun r => r.blocked) = false := by
  cases hx : o.any (fun r => r.blocked)
  · rfl
  · exact absurd hx h

lemma goodH_step (s : HandlerState) (m : RawMsg) (hg : GoodH s) :
    GoodH (onMessage s m) := by
  by_cases ho : s.streamOpen = false
  · rw [onMessage_closed s m ho]
    exact hg
  · unfold onMessage
    rw [if_neg ho]
    cases m with
    | malformed => exact hg
    | parsed d =>
      by_cases hb : d.risk.any (fun r => r.blocked) = true
      · obtain ⟨h1, h2, h3, _, _⟩ := onParsed_blocked s d hb
        exact ⟨by simp [h1, h2], fun _ => h3⟩
      · have hb' := any_blocked_false d.risk hb
        cases he : d.error with
        | some m' =>
          obtain ⟨h1, h2, _, _⟩ := onParsed_err s d m' hb' he
          exact ⟨by simp [h1, h2], fun hh => by rw [h1] at hh; cases hh⟩
        | none =>
          cases hd : d.done with
          | true =>
            obtain ⟨h1, h2, _, _⟩ := onParsed_done s d hb' he hd
            exact ⟨by simp [h1, h2], fun hh => by rw [h1] at hh; cases hh⟩
          | false =>
            obtain ⟨h1, h2, _, _⟩ := onParsed_quiet s d hb' he hd
            refine ⟨by rw [h1, h2]; exact hg.1, fun hh => ?_⟩
            rw [h1] at hh
            have hopen : s.streamOpen = true := bool_not_false _ ho
            rw [hg.1.mp hopen] at hh
            cases hh

lemma goodH_processMsgs (msgs : List RawMsg) :
    ∀ s : HandlerState, GoodH s → GoodH (processMsgs s msgs) := by
  induction msgs with
  | nil => intro s hs; exact hs
  | cons m ms ih =>
    intro s hs
    rw [processMsgs_cons]
    exact ih (onMessage s m) (goodH_step s m hs)

/-- Progress invariant of the SSE handler relative to the starting index:
the tracked index never moves backwards, and until the run resolves as done
the completed steps are exactly the contiguous range from the start up to the
tracked index, in order. -/
def HInv (i0 : Nat) (s : HandlerState) : Prop :=
  GoodH s
  ∧ i0 ≤ s.currentIdx
  ∧ (s.settled ≠ Settled.resolvedDone → s.completed = stepsBetween i0 s.currentIdx)

lemma hinv_init (i0 : Nat) : HInv i0 (initHandler i0) :=
  ⟨goodH_init i0, le_refl _, fun _ => by simp [initHandler, stepsBetween_self]⟩

lemma hinv_step (i0 : Nat) (s : HandlerState) (m : RawMsg) (h : HInv i0 s) :
    HInv i0 (onMessage s m) := by
  refine ⟨goodH_step s m h.1, ?_⟩
  by_cases ho : s.streamOpen = false
  · rw [onMessage_closed s m ho]
    exact h.2
  · have hopen : s.streamOpen = true := bool_not_false _ ho
    have hset : s.settled = Settled.notYet := h.1.1.mp hopen
    have hnd : s.settled ≠ Settled.resolvedDone := by rw [hset]; intro hh; cases hh
    unfold onMessage
    rw [if_neg ho]
    cases m with
    | malformed => exact h.2
    | parsed d =>
      have hA1 := advanceStage_currentIdx_ge s (d.stage.getD "")
      have hAcomp : (advanceStage s (d.stage.getD "")).completed
          = stepsBetween i0 (advanceStage s (d.stage.getD "")).currentIdx := by
        rw [advanceStage_completed, h.2.2 hnd]
        exact stepsBetween_trans i0 s.currentIdx _ h.2.1 hA1
      by_cases hb : d.risk.any (fun r => r.blocked) = true
      · obtain ⟨_, _, _, hidx, hcomp⟩ := onParsed_blocked s d hb
        refine ⟨by rw [hidx]; exact le_trans h.2.1 hA1, fun _ => ?_⟩
        rw [hcomp, hidx]
        exact hAcomp
      · have hb' := any_blocked_false d.risk hb
        cases he : d.error with
        | some m' =>
          obtain ⟨_, _, hidx, hcomp⟩ := onParsed_err s d m' hb' he
          refine ⟨by rw [hidx]; exact le_trans h.2.1 hA1, fun _ => ?_⟩
          rw [hcomp, hidx]
          exact hAcomp
        | none =>
          cases hd : d.done with
          | true =>
            obtain ⟨hset2, _, hidx, _⟩ := onParsed_done s d hb' he hd
            refine ⟨by rw [hidx]; exact le_trans h.2.1 hA1, fun hne => ?_⟩
            exact absurd hset2 hne
          | false =>
            obtain ⟨_, _, hidx, hcomp⟩ := onParsed_quiet s d hb' he hd
            refine ⟨by rw [hidx]; exact le_trans h.2.1 hA1, fun _ => ?_⟩
            rw [hcomp, hidx]
            exact hAcomp

lemma hinv_processMsgs (i0 : Nat) (msgs : List RawMsg) :
    ∀ s : HandlerState, HInv i0 s → HInv i0 (processMsgs s msgs) := by
  induction msgs with
  | nil => intro s hs; exact hs
  | cons m ms ih =>
    intro s hs
    rw [processMsgs_cons]
    exact ih (onMessage s m) (hinv_step i0 s m hs)

lemma onMessage_blocked_step (s : HandlerState) (d : SSEData)
    (ho : s.streamOpen = true) (hb : d.risk.any (fun r => r.blocked) = true) :
    (onMessage s (RawMsg.parsed d)).settled = Settled.resolvedBlocked
    ∧ (onMessage s (RawMsg.parsed d)).streamOpen = false := by
  have hne : ¬s.streamOpen = false := by rw [ho]; intro hh; cases hh
  unfold onMessage
  rw [if_neg hne]
  exact ⟨(onParsed_blocked s d hb).1, (onParsed_blocked s d hb).2.1⟩

lemma settled_not_blocked_step (s : HandlerState) (m : RawMsg)
    (hs : s.settled ≠ Settled.resolvedBlocked)
    (hm : ∀ d, m = RawMsg.parsed d → d.risk.any (fun r => r.blocked) = false) :
    (onMessage s m).settled ≠ Settled.resolvedBlocked := by
  by_cases ho : s.streamOpen = false
  · rw [onMessage_closed s m ho]
    exact hs
  · unfold onMessage
    rw [if_neg ho]
    cases m with
    | malformed => exact hs
    | parsed d =>
      have hb := hm d rfl
      cases he : d.error with
      | some m' =>
        rw [(onParsed_err s d m' hb he).1]
        intro hh
        cases hh
      | none =>
        cases hd : d.done with
        | true =>
          rw [(onParsed_done s d hb he hd).1]
          intro hh
          cases hh
        | false =>
          rw [(onParsed_quiet s d hb he hd).1]
          exact hs

lemma settled_not_blocked_fold (msgs : List RawMsg) :
    ∀ s : HandlerState, s.settled ≠ Settled.resolvedBlocked →
      (∀ d, RawMsg.parsed d ∈ msgs → d.risk.any (fun r => r.blocked) = false) →
      (processMsgs s msgs).settled ≠ Settled.resolvedBlocked := by
  induction msgs with
  | nil => intro s hs _; exact hs
  | cons m ms ih =>
    intro s hs hall
    rw [processMsgs_cons]
    refine ih (onMessage s m)
      (settled_not_blocked_step s m hs fun d hd => hall d (by rw [← hd]; exact List.mem_cons_self m ms))
      (fun d hd => hall d (List.mem_cons_of_mem m hd))

/-- Progress invariant of the polling loop relative to its start index. -/
def PInv (i0 : Nat) (p : PollState) : Prop :=
  i0 ≤ p.currentIdx ∧ p.completed = stepsBetween i0 p.currentIdx

lemma pinv_init (i0 : Nat) : PInv i0 (initPollState i0) :=
  ⟨le_refl _, by simp [initPollState, stepsBetween_self]⟩

lemma pinv_advancePoll (i0 : Nat) (p : PollState) (st : String) (h : PInv i0 p) :
    PInv i0 (advancePoll p st) := by
  refine ⟨le_trans h.1 (advancePoll_currentIdx_ge p st), ?_⟩
  rw [advancePoll_completed, h.2]
  exact stepsBetween_trans i0 p.currentIdx _ h.1 (advancePoll_currentIdx_ge p st)

lemma pollRun_inv (i0 : Nat) (polls : List PollResp) :
    ∀ p : PollState, PInv i0 p →
      i0 ≤ (pollRun p polls).1.currentIdx
      ∧ ((pollRun p polls).2 ≠ PollOutcome.completed →
          (pollRun p polls).1.completed
            = stepsBetween i0 (pollRun p polls).1.currentIdx) := by
  induction polls with
  | nil =>
    intro p hp
    exact ⟨hp.1, fun _ => hp.2⟩
  | cons r rest ih =>
    intro p hp
    cases r with
    | netErr msg =>
      by_cases hn : msgIncludes msg "not found" = true
      · simp only [pollRun, hn, if_true]
        exact ⟨hp.1, fun _ => hp.2⟩
      · have hn' : msgIncludes msg "not found" = false := by
          cases hx : msgIncludes msg "not found"
          · rfl
          · exact absurd hx hn
        simp only [pollRun, hn', Bool.false_eq_true, if_false]
        exact ih p hp
    | ok st riskResp =>
      obtain ⟨cs, serr, srr⟩ := st
      have hp2 := pinv_advancePoll i0 p cs hp
      have hq1 : i0 ≤ ({ advancePoll p cs with
          statusText := "Stage: " ++ stageDisplay cs } : PollState).currentIdx := hp2.1
      have hq2 : ({ advancePoll p cs with
            statusText := "Stage: " ++ stageDisplay cs } : PollState).completed
          = stepsBetween i0 ({ advancePoll p cs with
            statusText := "Stage: " ++ stageDisplay cs } : PollState).currentIdx := hp2.2
      cases serr with
      | some msg =>
        cases hx : msgIncludes msg "not found" with
        | false =>
          simp only [pollRun, hx, Bool.false_eq_true, if_false]
          exact ih _ ⟨hq1, hq2⟩
        | true =>
          simp only [pollRun, hx, if_true]
          exact ⟨hq1, fun _ => hq2⟩
      | none =>
        by_cases hrb : cs = "risk_blocked"
        · subst hrb
          cases riskResp with
          | none =>
            simp only [pollRun]
            rw [if_pos trivial]
            exact ⟨hq1, fun _ => hq2⟩
          | some rr =>
            simp only [pollRun]
            rw [if_pos trivial]
            exact ⟨hq1, fun _ => hq2⟩
        · cases srr with
          | true =>
            simp only [pollRun]
            rw [if_neg hrb, if_pos trivial]
            exact ⟨hq1, fun hc => absurd rfl hc⟩
          | false =>
            simp only [pollRun]
            rw [if_neg hrb, if_neg Bool.false_ne_true]
            exact ih _ ⟨hq1, hq2⟩

/-! ## Claim theorems -/

/-- C1: the verdict classification from behaviorPreservationPct and
criticalDrifts matches the threshold table of the spec: SAFE exactly when the
percentage is at least 98 and there are no critical drifts, BLOCKED exactly
when the percentage is under 85 or there are more than two critical drifts
(taking precedence over RISKY), RISKY otherwise; the four sample points of
the spec evaluate as stated, and at zero critical drifts the SAFE verdict
agrees with the frontend coloring threshold of report.js and validation.js. -/
theorem c1_verdict_thresholds (pct : ℚ) (crit : ℕ) :
    (computeVerdict pct crit = Verdict.SAFE ↔ (98 ≤ pct ∧ crit = 0))
    ∧ (computeVerdict pct crit = Verdict.BLOCKED ↔ (pct < 85 ∨ 2 < crit))
    ∧ (computeVerdict pct crit = Verdict.RISKY ↔
        (¬(98 ≤ pct ∧ crit = 0) ∧ ¬(pct < 85 ∨ 2 < crit)))
    ∧ (crit = 0 →
        (computeVerdict pct crit = Verdict.SAFE ↔ preservationColorClass pct = "text-safe"))
    ∧ computeVerdict 99 0 = Verdict.SAFE
    ∧ computeVerdict 90 1 = Verdict.RISKY
    ∧ computeVerdict 80 0 = Verdict.BLOCKED
    ∧ computeVerdict 95 3 = Verdict.BLOCKED := by
  refine ⟨verdict_safe_iff pct crit, verdict_blocked_iff pct crit,
    verdict_risky_iff pct crit, ?_, ?_, ?_, ?_, ?_⟩
  · intro h0
    rw [verdict_safe_iff, color_safe_iff]
    simp [h0]
  · rw [verdict_safe_iff]; norm_num
  · rw [verdict_risky_iff]; norm_num
  · rw [verdict_blocked_iff]; norm_num
  · rw [verdict_blocked_iff]; norm_num

/-- C1 witness: instantiating the theorem at the SAFE sample point. -/
theorem c1_verdict_thresholds_witness : preservationColorClass 99 = "text-safe" :=
  ((c1_verdict_thresholds 99 0).2.2.2.1 rfl).mp (c1_verdict_thresholds 99 0).2.2.2.2.1

/-- C2: the push path and the pull path resolve a backend stage label through
the identical STAGE_MAP table, apply the identical advance guard, and hence
report the same stage index for the same observed label. -/
theorem c2_transport_consistency (label : String) (i : Nat) :
    sseStageIdx (some label) = pollStageIdx label
    ∧ sseAdvanceIdx i (some label) = pollAdvanceIdx i label
    ∧ (onMessage (initHandler i)
        (RawMsg.parsed
          { stage := some label, risk := none, drifts := none, error := none, done := false })).currentIdx
      = (pollRun (initPollState i)
          [PollResp.ok { current_stage := label, error := none, report_ready := false } none]).1.currentIdx := by
  refine ⟨rfl, rfl, ?_⟩
  by_cases hb : label = "risk_blocked"
  · subst hb
    have hs : STAGE_MAP "risk_blocked" = some 5 := rfl
    by_cases hi : i < 5 <;>
      simp [onMessage, onParsed, advanceStage, advancePoll, initHandler, initPollState,
        pollRun, hs, hi]
  · cases h : STAGE_MAP label with
    | none =>
      simp [onMessage, onParsed, advanceStage, advancePoll, initHandler, initPollState,
        pollRun, hb, h]
    | some newIdx =>
      by_cases hi : i < newIdx <;>
        simp [onMessage, onParsed, advanceStage, advancePoll, initHandler, initPollState,
          pollRun, hb, h, hi]

/-- C10: an SSE message whose data is not valid JSON is skipped: it leaves
every component of the handler state unchanged, does not close the stream,
and removing it from a delivery sequence does not change the final state. -/
theorem c10_malformed_skip (s : HandlerState) (pre post : List RawMsg) :
    onMessage s RawMsg.malformed = s
    ∧ processMsgs s (pre ++ RawMsg.malformed :: post) = processMsgs s (pre ++ post) := by
  refine ⟨onMessage_malformed s, ?_⟩
  unfold processMsgs
  rw [List.foldl_append, List.foldl_append, List.foldl_cons, onMessage_malformed]

/-- C8: State.setResult stores the value under its key, leaves every other
key as well as the session id and the running flag unchanged, and its
synchronous emit performs exactly the calls of the listeners registered for
the result event of that key, in registration order, each with the stored
payload. -/
theorem c8_setResult_frame {α β : Type} (st : StateData α) (key : String) (v : α)
    (k2 : String) (regs : List (Registration β)) :
    getResult (setResult st key v) key = some v
    ∧ (k2 ≠ key → getResult (setResult st key v) k2 = getResult st k2)
    ∧ (setResult st key v).sessionId = st.sessionId
    ∧ (setResult st key v).pipelineRunning = st.pipelineRunning
    ∧ setResultEmits (registerAll regs) key v
      = (regs.filter (fun r => r.event = "result:" ++ key)).map (fun r => (r.fn, v)) := by
  refine ⟨getResult_setResult_self st key v, ?_, rfl, rfl, ?_⟩
  · intro h
    exact getResult_setResult_other st k2 key v h
  · unfold setResultEmits emitCalls
    rw [registerAll_lookup]
    simp [List.map_map]

/-- C8 witness: a concrete store, key, and listener table. -/
theorem c8_setResult_frame_witness :
    getResult
      (setResult
        ({ sessionId := some "sess-1", pipelineRunning := false, results := fun _ => none } :
          StateData String) "patch" "v1") "graph" = none :=
  ((@c8_setResult_frame String Unit
      { sessionId := some "sess-1", pipelineRunning := false, results := fun _ => none }
      "patch" "v1" "graph" []).2.1 (by decide)).trans rfl

/-- C9 counterexample: a non-ok response whose body is not JSON produces an
error message equal to the statusText of the response, not HTTP status. -/
theorem c9_fetch_counterexample :
    fetchModel
        { ok := false, status := 500, statusText := "Internal Server Error", jsonBody := none }
      = Except.error "Internal Server Error"
    ∧ "Internal Server Error" ≠ "HTTP 500" := by
  refine ⟨rfl, ?_⟩
  decide

/-- C9 amended: the wrapper resolves with the parsed body exactly when the
response is ok and its body parses as JSON; a non-ok response never resolves;
the thrown message is the nonempty detail of a JSON body, the HTTP status
fallback when the JSON body lacks a nonempty detail, and for a body that does
not parse the statusText of the response, falling back to HTTP status only
when the statusText is empty. -/
theorem c9_fetch_amended (r : HttpResponse) :
    ((∃ b, fetchModel r = Except.ok b) ↔ (r.ok = true ∧ r.jsonBody ≠ none))
    ∧ (r.ok = true → ∀ b, r.jsonBody = some b → fetchModel r = Except.ok b)
    ∧ (r.ok = false → ∀ b, fetchModel r ≠ Except.ok b)
    ∧ (r.ok = false → ∀ b d, r.jsonBody = some b → b.detail = some d → d ≠ "" →
        fetchModel r = Except.error d)
    ∧ (r.ok = false → ∀ b, r.jsonBody = some b → (b.detail = none ∨ b.detail = some "") →
        fetchModel r = Except.error ("HTTP " ++ toString r.status))
    ∧ (r.ok = false → r.jsonBody = none →
        fetchModel r
          = Except.error
              (if r.statusText = "" then "HTTP " ++ toString r.status else r.statusText)) := by
  refine ⟨?_, ?_, ?_, ?_, ?_, ?_⟩
  · constructor
    · rintro ⟨b, hb⟩
      cases hok : r.ok
      · rw [fetchModel_not_ok r hok] at hb
        cases hb
      · refine ⟨rfl, ?_⟩
        cases hj : r.jsonBody
        · rw [show fetchModel r = Except.error "invalid json" by simp [fetchModel, hok, hj]] at hb
          cases hb
        · simp [hj]
    · rintro ⟨hok, hj⟩
      cases hjb : r.jsonBody with
      | none => exact absurd hjb hj
      | some b => exact ⟨b, by simp [fetchModel, hok, hjb]⟩
  · intro hok b hb
    simp [fetchModel, hok, hb]
  · intro hok b
    rw [fetchModel_not_ok r hok]
    intro hb
    cases hb
  · intro hok b d hb hd hne
    rw [fetchModel_not_ok r hok]
    simp [fetchErrMsg, hb, hd, hne]
  · intro hok b hb hdet
    rw [fetchModel_not_ok r hok]
    rcases hdet with hd | hd <;> simp [fetchErrMsg, hb, hd]
  · intro hok hj
    rw [fetchModel_not_ok r hok]
    simp [fetchErrMsg, hj]

/-- C9 witness: a non-ok response with a JSON detail message throws the
detail. -/
theorem c9_fetch_amended_witness :
    fetchModel
        { ok := false, status := 404, statusText := "Not Found",
          jsonBody := some { detail := some "session not found" } }
      = Except.error "session not found" :=
  (c9_fetch_amended
      { ok := false, status := 404, statusText := "Not Found",
        jsonBody := some { detail := some "session not found" } }).2.2.2.1
    rfl _ _ rfl rfl (by decide)

/-- C6 counterexample: with a stale patch artifact cached pre-override and
every post-override fetch answering not found, the stale value is still
observable through the client result store after fetchAllResults. -/
theorem c6_stale_counterexample :
    getResult (fetchAllResultsModel preOverrideStore notFoundResponses) "patch"
      = some "stale-patch"
    ∧ getResult (fetchAllResultsModel preOverrideStore notFoundResponses) "patch" ≠ none := by
  refine ⟨rfl, ?_⟩
  intro h
  rw [show getResult (fetchAllResultsModel preOverrideStore notFoundResponses) "patch"
      = some "stale-patch" from rfl] at h
  cases h

/-- C6 amended: after an override the spec-modelled backend store answers not
found for every later-stage artifact, and the client fetchAllResults stores
only fulfilled fetches, so an invalidated artifact is never overwritten with
a fresh value — but the stale pre-override value remains observable in the
client result store for keys whose re-fetch was rejected. -/
theorem c6_invalidate_amended {α : Type} :
    (∀ (arts : String → Option α) (rerunIdx i : Nat) (stage : String),
        STAGES.findIdx? (fun s => s = stage) = some i → rerunIdx < i →
        fetchArtifactModel (invalidateLaterStages arts rerunIdx) stage
          = Except.error "not found")
    ∧ (∀ (st : StateData α) (resp : String → Except String α) (key e : String),
        resp key = Except.error e →
        getResult (fetchAllResultsModel st resp) key = getResult st key) := by
  constructor
  · intro arts rerunIdx i stage hidx hlt
    simp [invalidateLaterStages, fetchArtifactModel, hidx, hlt]
  · intro st resp key e h
    exact fetchFold_keeps_rejected resp key e h RESULT_KEYS st

/-- C7: over either channel, the tracked stage index never moves backwards,
and until a terminal event the completed steps are exactly the contiguous
range from the starting index up to the tracked index, in order, with no
gaps. -/
theorem c7_stage_monotone_no_gaps (i0 : Nat) (msgs : List RawMsg) (polls : List PollResp) :
    (i0 ≤ (processMsgs (initHandler i0) msgs).currentIdx
      ∧ ((processMsgs (initHandler i0) msgs).settled ≠ Settled.resolvedDone →
          (processMsgs (initHandler i0) msgs).completed
            = stepsBetween i0 (processMsgs (initHandler i0) msgs).currentIdx))
    ∧ (i0 ≤ (pollRun (initPollState i0) polls).1.currentIdx
      ∧ ((pollRun (initPollState i0) polls).2 ≠ PollOutcome.completed →
          (pollRun (initPollState i0) polls).1.completed
            = stepsBetween i0 (pollRun (initPollState i0) polls).1.currentIdx)) := by
  have h1 := hinv_processMsgs i0 msgs (initHandler i0) (hinv_init i0)
  have h2 := pollRun_inv i0 polls (initPollState i0) (pinv_init i0)
  exact ⟨⟨h1.2.1, h1.2.2⟩, h2⟩

/-- C7 witness: a push event jumping to index 2 completes steps 0 and 1 in
order, and a poll snapshot jumping to index 4 completes steps 0 to 3. -/
theorem c7_stage_monotone_no_gaps_witness :
    (processMsgs (initHandler 0)
        [RawMsg.parsed
          { stage := some "dead_code_detected", risk := none, drifts := none,
            error := none, done := false }]).completed = stepsBetween 0 2
    ∧ (pollRun (initPollState 0)
        [PollResp.ok
          { current_stage := "baseline_complete", error := none, report_ready := false }
          none]).1.completed = stepsBetween 0 4 := by
  constructor
  · exact (c7_stage_monotone_no_gaps 0
      [RawMsg.parsed
        { stage := some "dead_code_detected", risk := none, drifts := none,
          error := none, done := false }] []).1.2 (by decide)
  · exact (c7_stage_monotone_no_gaps 0 []
      [PollResp.ok
        { current_stage := "baseline_complete", error := none, report_ready := false }
        none]).2.2 (by decide)

/-- C3: a run whose promise resolved as blocked has a closed stream, shows
the pause message, and never reaches the result fetch; a blocked risk event
delivered while the stream is live forces exactly that resolution no matter
what follows; and a run in which every risk event is unblocked can never
resolve as blocked — when it resolves as done, the results are fetched with
no client interaction. -/
theorem c3_risk_gate_holds (msgs : List RawMsg) :
    ((processMsgs (initHandler 0) msgs).settled = Settled.resolvedBlocked →
        sseOnlyRun msgs = RunResult.pausedAtRisk
        ∧ (processMsgs (initHandler 0) msgs).streamOpen = false
        ∧ (processMsgs (initHandler 0) msgs).statusText = riskPausedMsg)
    ∧ (∀ pre d post, msgs = pre ++ RawMsg.parsed d :: post →
        d.risk.any (fun r => r.blocked) = true →
        (processMsgs (initHandler 0) pre).settled = Settled.notYet →
        (processMsgs (initHandler 0) msgs).settled = Settled.resolvedBlocked)
    ∧ ((∀ d, RawMsg.parsed d ∈ msgs → d.risk.any (fun r => r.blocked) = false) →
        (processMsgs (initHandler 0) msgs).settled ≠ Settled.resolvedBlocked
        ∧ ((processMsgs (initHandler 0) msgs).settled = Settled.resolvedDone →
            sseOnlyRun msgs = RunResult.completedFetched)) := by
  refine ⟨?_, ?_, ?_⟩
  · intro h
    have hg := goodH_processMsgs msgs (initHandler 0) (goodH_init 0)
    have hopen : (processMsgs (initHandler 0) msgs).streamOpen = false := by
      cases hx : (processMsgs (initHandler 0) msgs).streamOpen
      · rfl
      · rw [hg.1.mp hx] at h
        cases h
    refine ⟨?_, hopen, hg.2 h⟩
    unfold sseOnlyRun
    rw [h]
  · intro pre d post hmsgs hb hpre
    subst hmsgs
    rw [processMsgs_append, processMsgs_cons]
    have hgpre := goodH_processMsgs pre (initHandler 0) (goodH_init 0)
    have hopen : (processMsgs (initHandler 0) pre).streamOpen = true := hgpre.1.mpr hpre
    obtain ⟨hset, hcl⟩ := onMessage_blocked_step _ d hopen hb
    rw [processMsgs_closed _ post hcl]
    exact hset
  · intro hall
    have hinit : (initHandler 0).settled ≠ Settled.resolvedBlocked := by
      intro hh
      simp [initHandler] at hh
    refine ⟨settled_not_blocked_fold msgs (initHandler 0) hinit hall, fun hdone => ?_⟩
    unfold sseOnlyRun
    rw [hdone]

/-- C3 witness: a blocked risk assessment event pauses the run without
fetching results. -/
theorem c3_risk_gate_holds_witness :
    sseOnlyRun
        [RawMsg.parsed
          { stage := some "baseline_complete", risk := some { blocked := true },
            drifts := none, error := none, done := false }]
      = RunResult.pausedAtRisk :=
  ((c3_risk_gate_holds
      [RawMsg.parsed
        { stage := some "baseline_complete", risk := some { blocked := true },
          drifts := none, error := none, done := false }]).1 (by decide)).1

/-- C5: when the push transport errors while the run is unsettled, the run
falls back to polling from exactly the stage index already reached; the run
completes and fetches results when the snapshot reports report_ready; any
failure of the fallback run is a failure reported by the status snapshot, so
the transport error itself is never surfaced as a pipeline error; and the
tracked index never falls back below the index reached on the push channel. -/
theorem c5_transport_fallback (msgs : List RawMsg) (polls : List PollResp) :
    (processMsgs (initHandler 0) msgs).settled = Settled.notYet →
    (transportErrorRun msgs polls
        = match (pollRun (initPollState (processMsgs (initHandler 0) msgs).currentIdx)
              polls).2 with
          | PollOutcome.completed => RunResult.completedFetched
          | PollOutcome.blockedPause => RunResult.completedFetched
          | PollOutcome.failed m => RunResult.failed m
          | PollOutcome.pending => RunResult.stillWaiting)
    ∧ ((pollRun (initPollState (processMsgs (initHandler 0) msgs).currentIdx) polls).2
          = PollOutcome.completed →
        transportErrorRun msgs polls = RunResult.completedFetched)
    ∧ (∀ m, transportErrorRun msgs polls = RunResult.failed m →
        (pollRun (initPollState (processMsgs (initHandler 0) msgs).currentIdx) polls).2
          = PollOutcome.failed m)
    ∧ (processMsgs (initHandler 0) msgs).currentIdx
        ≤ (pollRun (initPollState (processMsgs (initHandler 0) msgs).currentIdx)
            polls).1.currentIdx := by
  intro hset
  have hg := goodH_processMsgs msgs (initHandler 0) (goodH_init 0)
  have hopen : (processMsgs (initHandler 0) msgs).streamOpen = true := hg.1.mpr hset
  have heq : transportErrorRun msgs polls
      = match (pollRun (initPollState (processMsgs (initHandler 0) msgs).currentIdx)
            polls).2 with
        | PollOutcome.completed => RunResult.completedFetched
        | PollOutcome.blockedPause => RunResult.completedFetched
        | PollOutcome.failed m => RunResult.failed m
        | PollOutcome.pending => RunResult.stillWaiting := by
    unfold transportErrorRun
    rw [hopen, if_pos rfl]
  refine ⟨heq, ?_, ?_, ?_⟩
  · intro hc
    rw [heq, hc]
  · intro m hf
    rw [heq] at hf
    cases ho : (pollRun (initPollState (processMsgs (initHandler 0) msgs).currentIdx)
        polls).2 with
    | pending => rw [ho] at hf; cases hf
    | failed m2 =>
      rw [ho] at hf
      injection hf with hm
      rw [hm]
    | blockedPause => rw [ho] at hf; cases hf
    | completed => rw [ho] at hf; cases hf
  · exact (pollRun_inv _ polls _ (pinv_init _)).1

/-- C5 witness: with no push progress and a snapshot reporting report_ready,
the fallback run completes and fetches results. -/
theorem c5_transport_fallback_witness :
    transportErrorRun []
        [PollResp.ok { current_stage := "complete", error := none, report_ready := true } none]
      = RunResult.completedFetched :=
  ((c5_transport_fallback []
      [PollResp.ok { current_stage := "complete", error := none, report_ready := true } none])
    (by decide)).2.1 (by decide)

/-- C4: a successful override call marks the risk step done, activates the
migration step, resumes by polling from index 6, and once the poll reports
completion all results are fetched and the run is terminally complete with no
recorded failure. -/
theorem c4_override_resumes (polls : List PollResp) :
    (overrideRiskModel (Except.ok ()) polls).riskStepDone = true
    ∧ (overrideRiskModel (Except.ok ()) polls).migrationActivated = true
    ∧ (overrideRiskModel (Except.ok ()) polls).pollStartIdx = some 6
    ∧ ((pollRun (initPollState 6) polls).2 = PollOutcome.completed →
        (overrideRiskModel (Except.ok ()) polls).fetched = true
        ∧ (overrideRiskModel (Except.ok ()) polls).terminalComplete = true
        ∧ (overrideRiskModel (Except.ok ()) polls).failedMsg = none) := by
  rcases hpr : pollRun (initPollState 6) polls with ⟨ps, out⟩
  cases out <;> simp [overrideRiskModel, hpr]

/-- C4 witness: one snapshot reporting report_ready finishes the resumed
run. -/
theorem c4_override_resumes_witness :
    (overrideRiskModel (Except.ok ())
        [PollResp.ok { current_stage := "complete", error := none, report_ready := true }
          none]).terminalComplete = true := by
  have h := (c4_override_resumes
      [PollResp.ok { current_stage := "complete", error := none, report_ready := true }
        none]).2.2.2 (by decide)
  exact h.2.1

/-- C6 witness: re-running the risk stage invalidates the migration artifact
on the spec-modelled server, and a rejected re-fetch leaves the client store
entry untouched. -/
theorem c6_invalidate_amended_witness :
    fetchArtifactModel (invalidateLaterStages (fun _ => some "patch-v1") 5) "migration"
      = Except.error "not found"
    ∧ getResult (fetchAllResultsModel preOverrideStore notFoundResponses) "patch"
      = getResult preOverrideStore "patch" :=
  ⟨(@c6_invalidate_amended String).1 (fun _ => some "patch-v1") 5 6 "migration"
      (by decide) (by decide),
   (@c6_invalidate_amended String).2 preOverrideStore notFoundResponses "patch" "not found" rfl⟩

end BehaviourLock
